import Mathlib

/-!
# Reminder scheduling and delivery subsystem — verification

Shallow embedding of the reminder core of the AthenaConcierge repository:
recurrence calculation, effective-schedule resolution, the due-reminder
scanner, the dispatcher with per-rule failure isolation, the conditional
mark-sent update, the retry controller, and the public listing interface.

The backend worker modules (`backend/app/workers/reminder_worker.py`,
`backend/app/agents/reminder.py`, and the reminders API route handlers) are
not part of the source tree available here; only their documentation
(QUICKSTART.md), the SQL schema/indexes, and the frontend API client are.
Definitions for those modules are modelled from the specification and from
the repository documentation, and are marked as such in their doc comments.
-/

namespace AthenaConcierge

/-- A calendar date (year, month, day), as used by `date_items.date_value`
and `next_occurrence` in the schema (QUICKSTART.md, Date Item Schema). -/
structure Date where
  year : Int
  month : Nat
  day : Nat
deriving Repr, DecidableEq

/-- Chronological (lexicographic) order on calendar dates. -/
def Date.le (a b : Date) : Prop :=
  a.year < b.year ∨ (a.year = b.year ∧
    (a.month < b.month ∨ (a.month = b.month ∧ a.day ≤ b.day)))

instance (a b : Date) : Decidable (Date.le a b) := by
  unfold Date.le
  infer_instance

/-- Modelled from the spec: the yearly branch of the RecurrenceCalculator in
the backend worker code (not under src/).  Returns the date with the
anchor's month/day in the current reference year if that date has not yet
passed, otherwise in the following year (spec §4.1; QUICKSTART.md shows
`FREQ=YEARLY` anchored 1985-03-15 with `next_occurrence` 2026-03-15). -/
def yearlyNext (anchor : Date) (ref : Date) : Date :=
  if Date.le ref ⟨ref.year, anchor.month, anchor.day⟩ then
    ⟨ref.year, anchor.month, anchor.day⟩
  else
    ⟨ref.year + 1, anchor.month, anchor.day⟩

/-- Modelled from the spec: the RecurrenceCalculator of the backend worker
code (not under src/).  `nextOccurrence anchor rule ref` returns the anchor
when there is no recurrence rule, the yearly roll-forward for `FREQ=YEARLY`,
and — per spec §9, which records that the source silently treats any
non-yearly pattern as "no recurrence" — falls back to the anchor date for
any other pattern. -/
def nextOccurrence (anchor : Date) (rule : Option String) (ref : Date) : Date :=
  match rule with
  | none => anchor
  | some r => if r = "FREQ=YEARLY" then yearlyNext anchor ref else anchor

/-- Gregorian leap-year test. -/
def isLeap (y : Int) : Bool :=
  y % 4 = 0 && (y % 100 ≠ 0 || y % 400 = 0)

/-- Number of days in a month of a given year. -/
def daysInMonth (y : Int) (m : Nat) : Nat :=
  if m = 2 then (if isLeap y then 29 else 28)
  else if m = 4 ∨ m = 6 ∨ m = 9 ∨ m = 11 then 30
  else 31

/-- The calendar day immediately before `d`. -/
def prevDay (d : Date) : Date :=
  if d.day > 1 then ⟨d.year, d.month, d.day - 1⟩
  else if d.month > 1 then ⟨d.year, d.month - 1, daysInMonth d.year (d.month - 1)⟩
  else ⟨d.year - 1, 12, 31⟩

/-- The calendar day immediately after `d`. -/
def nextDay (d : Date) : Date :=
  if d.day < daysInMonth d.year d.month then ⟨d.year, d.month, d.day + 1⟩
  else if d.month < 12 then ⟨d.year, d.month + 1, 1⟩
  else ⟨d.year + 1, 1, 1⟩

/-- `d` minus `n` calendar days. -/
def subDays (d : Date) : Nat → Date
  | 0 => d
  | n + 1 => subDays (prevDay d) n

/-- `d` plus `n` calendar days. -/
def addDays (d : Date) : Nat → Date
  | 0 => d
  | n + 1 => addDays (nextDay d) n

/-- A timestamp: a calendar date plus a time of day. -/
structure Timestamp where
  date : Date
  hour : Nat
  minute : Nat
deriving Repr, DecidableEq

/-- The configured delivery time-of-day (hour) for lead-time reminders:
09:00 local, per QUICKSTART.md (`scheduled_datetime "2026-03-01T09:00:00-05:00"`
for a 14-day lead on a 2026-03-15 occurrence) and spec §4.2. -/
def deliveryHour : Nat := 9

/-- Trigger kinds of a reminder rule: `lead_time` or `scheduled`
(QUICKSTART.md, Reminder Rule Schema: `reminder_type: "lead_time|scheduled"`). -/
inductive TriggerKind where
  | leadTime
  | fixedSchedule
deriving Repr, DecidableEq

/-- The error taxonomy of the reminder core (spec §7). -/
inductive ReminderError where
  | recurrenceError (msg : String)
  | configurationError
  | contextUnavailable (msg : String)
  | compositionError (msg : String)
  | deliveryError (transient : Bool) (msg : String)
  | storageError (msg : String)
  | notFound
  | invalidState
deriving Repr, DecidableEq

/-- The trigger-policy part of a reminder rule, as needed by
effective-schedule resolution (spec §4.2; QUICKSTART.md Reminder Rule
Schema: `reminder_type`, `lead_time_days`, `scheduled_datetime`). -/
structure TriggerSpec where
  kind : TriggerKind
  leadTimeDays : Option Nat
  scheduledDatetime : Option Timestamp
deriving Repr, DecidableEq

/-- Modelled from the spec: effective-schedule resolution in the reminders
backend (not under src/).  FIXED_SCHEDULE returns the stored explicit
timestamp verbatim; LEAD_TIME requires a parent DateItem's next occurrence
and returns it minus `leadTimeDays` days, normalized to the configured
delivery time-of-day; a LEAD_TIME rule without a parent fails with
`ConfigurationError` (spec §4.2). -/
def resolveScheduledAt (rule : TriggerSpec) (parentNextOccurrence : Option Date) :
    Except ReminderError Timestamp :=
  match rule.kind with
  | .fixedSchedule =>
    match rule.scheduledDatetime with
    | some t => .ok t
    | none => .error .configurationError
  | .leadTime =>
    match parentNextOccurrence, rule.leadTimeDays with
    | some p, some n => .ok ⟨subDays p n, deliveryHour, 0⟩
    | none, _ => .error .configurationError
    | some _, none => .error .configurationError

/-- Kinds of per-dispatch error, for the failure metadata recorded on a rule
(spec §4.4 step 5 and §9: typed `{attemptCount, lastError, lastErrorMessage}`
instead of the source's open JSON blob `metadata_jsonb`). -/
inductive ErrorKind where
  | contextUnavailable
  | compositionError
  | deliveryTransient
  | deliveryPermanent
deriving Repr, DecidableEq

/-- A dispatch-step failure: which collaborator failed and its message
(spec §4.4 steps 1-3, §7). -/
structure DispatchError where
  kind : ErrorKind
  msg : String
deriving Repr, DecidableEq

/-- Persistent state of one `reminder_rules` row, as the dispatcher and
scanner see it (QUICKSTART.md Reminder Rule Schema, the soft-delete
migration adding `deleted_at`, and spec §3/§9).  Timestamps here are
abstract instants (`Nat`), which the scanner only compares. -/
structure RuleState where
  id : Nat
  orgId : Nat
  scheduledAt : Nat
  sentAt : Option Nat
  deletedAt : Option Nat
  attemptCount : Nat
  lastError : Option ErrorKind
  lastErrorMessage : Option String
  lastErrorAt : Option Nat
  terminalFailure : Bool
deriving Repr, DecidableEq

/-- The persistent store of reminder rules: the shared mutable resource of
spec §5. -/
abbrev Store := List RuleState

/-- A rule is due when it is unsent, not soft-deleted, its scheduled time
has passed, and it belongs to the tenant — the predicate of the scanner
query and of the `idx_pending_reminders` partial index
(`scheduled_datetime, sent_at WHERE sent_at IS NULL AND deleted_at IS NULL`). -/
def isDue (now : Nat) (org : Nat) (r : RuleState) : Bool :=
  r.sentAt = none && r.deletedAt = none && r.scheduledAt ≤ now && r.orgId = org

/-- Scanner ordering: ascending `scheduled_at`, ties broken by rule
identifier (spec §4.3). -/
def ruleLe (a b : RuleState) : Prop :=
  a.scheduledAt < b.scheduledAt ∨ (a.scheduledAt = b.scheduledAt ∧ a.id ≤ b.id)

instance (a b : RuleState) : Decidable (ruleLe a b) := by
  unfold ruleLe
  infer_instance

instance : IsTotal RuleState ruleLe where
  total a b := by
    unfold ruleLe
    omega

instance : IsTrans RuleState ruleLe where
  trans a b c := by
    unfold ruleLe
    omega

/-- Modelled from the spec: `DueReminderScanner.findDue` in the backend
worker (not under src/).  Selects rules where `sent_at IS NULL`,
`deleted_at IS NULL`, `scheduled_at <= now`, scoped to the tenant, ordered
ascending by `scheduled_at` with a stable tie-break on rule identifier
(spec §4.3; QUICKSTART.md Reminder Worker). -/
def findDue (store : Store) (now : Nat) (org : Nat) : List RuleState :=
  List.insertionSort ruleLe (List.filter (isDue now org) store)

/-- The resolved target context of a rule, produced by the external
context-builder collaborator (spec §6). -/
structure PersonContext where
  personId : Nat
  summary : String
deriving Repr, DecidableEq

/-- The external collaborators the dispatcher consumes: context provider,
message composer, channel sender (spec §4.4 steps 1-3, §6).  Each may fail
independently. -/
structure Collaborators where
  getContext : RuleState → Except DispatchError PersonContext
  compose : PersonContext → RuleState → Except DispatchError String
  send : String → RuleState → Except DispatchError Unit

/-- An immutable record of an attempted or completed send (spec §3,
DeliveryRecord). -/
structure DeliveryRecord where
  ruleId : Nat
  timestamp : Nat
  success : Bool
  messageText : String
deriving Repr, DecidableEq

/-- Steps 1-3 of a dispatch: context fetch, composition, send.  Pure
pipeline over the collaborators; the first failure aborts the remaining
steps of this rule only. -/
def runSteps (env : Collaborators) (r : RuleState) : Except DispatchError String :=
  match env.getContext r with
  | .error e => .error e
  | .ok ctx =>
    match env.compose ctx r with
    | .error e => .error e
    | .ok text =>
      match env.send text r with
      | .error e => .error e
      | .ok _ => .ok text

/-- Failure metadata recorded on a rule after a failed dispatch attempt:
error kind, message, timestamp, incremented attempt count; `sent_at` is NOT
set (spec §4.4 step 5). -/
def recordFailure (now : Nat) (e : DispatchError) (r : RuleState) : RuleState :=
  { r with
    attemptCount := r.attemptCount + 1
    lastError := some e.kind
    lastErrorMessage := some e.msg
    lastErrorAt := some now }

/-- Successful-dispatch update of a rule: set `sent_at := now`, clear
failure metadata (spec §4.4 step 4). -/
def markSentFields (now : Nat) (r : RuleState) : RuleState :=
  { r with
    sentAt := some now
    lastError := none
    lastErrorMessage := none
    lastErrorAt := none
    terminalFailure := false }

/-- Modelled from the spec: dispatch of a single rule in the backend worker
(not under src/).  Runs steps 1-3; on success applies the mark-sent update
and appends a DeliveryRecord(success=true); on any failure leaves `sent_at`
unset, records failure metadata, and appends a DeliveryRecord(success=false)
(spec §4.4; QUICKSTART.md: "Failed reminders are NOT marked as sent"). -/
def dispatchOne (env : Collaborators) (now : Nat) (r : RuleState) :
    RuleState × DeliveryRecord :=
  match runSteps env r with
  | .ok text => (markSentFields now r, ⟨r.id, now, true, text⟩)
  | .error _e => (recordFailure now _e r, ⟨r.id, now, false, ""⟩)

/-- Replace the rule with identifier `id` in the store by `f` of it. -/
def updateRule (store : Store) (id : Nat) (f : RuleState → RuleState) : Store :=
  List.map (fun r => if r.id = id then f r else r) store

/-- Modelled from the spec: the atomic conditional mark-sent update,
"set sent_at where id=X and sent_at IS NULL" (spec §5).  Returns the
updated store and whether this attempt won the compare-and-set. -/
def markSentCAS (store : Store) (id : Nat) (now : Nat) : Store × Bool :=
  match List.find? (fun r => r.id = id) store with
  | none => (store, false)
  | some r =>
    if r.sentAt = none then
      (updateRule store id (markSentFields now), true)
    else
      (store, false)

/-- Run a sequence of conditional mark-sent attempts (the interleaving of
racing workers at compare-and-set granularity, spec §5) and count how many
attempts won. -/
def runCASAttempts (store : Store) (id : Nat) : List Nat → Store × Nat
  | [] => (store, 0)
  | now :: rest =>
    let (store', won) := markSentCAS store id now
    let (store'', wins) := runCASAttempts store' id rest
    (store'', (if won then 1 else 0) + wins)

/-- One per-rule step of a dispatch cycle: look the rule up in the current
store, and — only if it is still unsent (the `sent_at IS NULL` guard of
spec §4.4 step 4 / §5) — dispatch it and write the updated row back.  Any
dispatch failure is absorbed into the row's failure metadata by
`dispatchOne`; nothing propagates out of the step (spec §7). -/
def dispatchStep (env : Collaborators) (now : Nat) (store : Store) (id : Nat) : Store :=
  match List.find? (fun r => r.id = id) store with
  | none => store
  | some r =>
    if r.sentAt = none then
      updateRule store id (fun _ => (dispatchOne env now r).1)
    else
      store

/-- Process a list of due rule identifiers in order, one `dispatchStep`
each. -/
def processDue (env : Collaborators) (now : Nat) (store : Store) (ds : List Nat) : Store :=
  List.foldl (dispatchStep env now) store ds

/-- Modelled from the spec: one scan-and-dispatch cycle of the
ReminderWorker (`backend/app/workers/reminder_worker.py`, not under src/).
Scans for due rules and dispatches each independently, in the scanner's
order; per-rule errors are recorded on the rule and never abort the rest of
the batch (spec §4.4, §4.5, §7; QUICKSTART.md Error Handling). -/
def runCycle (env : Collaborators) (now : Nat) (org : Nat) (store : Store) : Store :=
  processDue env now store (List.map (fun r => r.id) (findDue store now org))

/-- The retry reset of a rule's fields: clear `sent_at`, clear the
terminal-failure flag and failure metadata, reset the attempt count, and
reschedule to "now" (spec §4.6). -/
def retryFields (now : Nat) (r : RuleState) : RuleState :=
  { r with
    sentAt := none
    terminalFailure := false
    attemptCount := 0
    scheduledAt := now
    lastError := none
    lastErrorMessage := none
    lastErrorAt := none }

/-- Modelled from the spec: the RetryController's `retry(ruleId)`
(`POST /reminders/{id}/retry`, route handler not under src/; QUICKSTART.md:
"Retry failed reminder — Resets sent_at, reschedules"; spec §4.6).  Fails
with `NotFound` if no such rule, `InvalidState` if the rule is still
PENDING; otherwise resets the rule and makes it immediately due. -/
def retry (store : Store) (id : Nat) (now : Nat) :
    Except ReminderError (RuleState × Store) :=
  match List.find? (fun r => r.id = id) store with
  | none => .error .notFound
  | some r =>
    if r.sentAt = none ∧ r.terminalFailure = false then
      .error .invalidState
    else
      .ok (retryFields now r, updateRule store id (retryFields now))

/-- The fields an ordinary `PUT /reminders/{id}` may change. -/
structure UpdatePatch where
  scheduledAt : Option Nat
deriving Repr, DecidableEq

/-- Apply an update patch to a rule row. -/
def applyPatch (p : UpdatePatch) (r : RuleState) : RuleState :=
  { r with scheduledAt := Option.getD p.scheduledAt r.scheduledAt }

/-- Modelled from the spec: the ordinary update endpoint
(`PUT /reminders/{id}`, route handler not under src/; QUICKSTART.md:
"Cannot update if already sent").  Rejects the update once the rule has
been sent. -/
def apiUpdate (store : Store) (id : Nat) (p : UpdatePatch) :
    Except ReminderError Store :=
  match List.find? (fun r => r.id = id) store with
  | none => .error .notFound
  | some r =>
    if r.sentAt = none then
      .ok (updateRule store id (applyPatch p))
    else
      .error .invalidState

/-- The operations that can touch a single rule row after creation:
ordinary update, dispatch (behind the unsent guard), soft delete, retry. -/
inductive RuleOp where
  | update (p : UpdatePatch)
  | dispatch (env : Collaborators) (now : Nat)
  | softDelete (now : Nat)
  | retryOp (now : Nat)

/-- The per-row effect of each operation: ordinary updates are rejected
(leave the row unchanged) once `sent_at` is set; dispatch runs only behind
the `sent_at IS NULL` guard; soft delete only sets `deleted_at`; retry
applies the retry reset. -/
def applyRuleOp : RuleOp → RuleState → RuleState
  | .update p, r => if r.sentAt = none then applyPatch p r else r
  | .dispatch env now, r => if r.sentAt = none then (dispatchOne env now r).1 else r
  | .softDelete now, r => { r with deletedAt := some now }
  | .retryOp now, r => retryFields now r

/-- The status filter of the public listing endpoint
(`GET /reminders?status_filter=`): exactly the three values accepted by
`remindersApi.list` in src/frontend/lib/api.ts
(`status_filter?: 'all' | 'pending' | 'sent'`). -/
inductive StatusFilter where
  | all
  | pending
  | sent
deriving Repr, DecidableEq

/-- The two lifecycle states the listing interface exposes
(QUICKSTART.md Reminder Rule Schema: `sent_at: null = pending,
timestamp = sent`). -/
inductive RuleStatus where
  | pending
  | sent
deriving Repr, DecidableEq

/-- The lifecycle status of a rule as derived by the listing interface:
purely a function of `sent_at`. -/
def statusOf (r : RuleState) : RuleStatus :=
  if r.sentAt = none then .pending else .sent

/-- Whether a rule passes a status filter. -/
def matchesFilter (f : StatusFilter) (r : RuleState) : Bool :=
  match f with
  | .all => true
  | .pending => statusOf r = RuleStatus.pending
  | .sent => statusOf r = RuleStatus.sent

/-- Modelled from the spec: the public listing endpoint (`GET /reminders`,
route handler not under src/; QUICKSTART.md: "Filter: person_id,
status_filter (all/pending/sent)").  Returns the tenant's non-deleted rules
passing the status filter. -/
def listReminders (store : Store) (org : Nat) (f : StatusFilter) : List RuleState :=
  List.filter (fun r => r.orgId = org && r.deletedAt = none && matchesFilter f r) store

/-! Concrete fixtures used to evaluate the theorems on closed inputs. -/

/-- A pending rule, due at instant 10 in tenant 1. -/
def pendR1 : RuleState := ⟨1, 1, 10, none, none, 0, none, none, none, false⟩

/-- A second pending rule, due at instant 20 in tenant 1. -/
def pendR2 : RuleState := ⟨2, 1, 20, none, none, 0, none, none, none, false⟩

/-- A third pending rule, due at instant 30 in tenant 1. -/
def pendR3 : RuleState := ⟨3, 1, 30, none, none, 0, none, none, none, false⟩

/-- An already-sent rule in tenant 1. -/
def sentR : RuleState := ⟨5, 1, 10, some 40, none, 2, none, none, none, false⟩

/-- A terminally-failed rule (unsent, attempt ceiling reached) in tenant 1. -/
def termR : RuleState :=
  ⟨6, 1, 10, none, none, 5, some .contextUnavailable, some "identity deleted", some 90, true⟩

/-- A three-rule store, all pending and due by instant 100. -/
def isoStore : Store := [pendR1, pendR2, pendR3]

/-- Collaborators whose context fetch always fails on rule 2 (its
channel-identity was deleted) and always succeeds elsewhere; composition
and send always succeed. -/
def isoEnv : Collaborators where
  getContext r :=
    if r.id = 2 then .error ⟨.contextUnavailable, "identity deleted"⟩ else .ok ⟨r.id, "ctx"⟩
  compose _ _ := .ok "hello"
  send _ _ := .ok ()

/-- Collaborators whose context fetch always fails. -/
def failEnv : Collaborators where
  getContext _ := .error ⟨.contextUnavailable, "identity deleted"⟩
  compose _ _ := .ok "hello"
  send _ _ := .ok ()

/-! ## Theorems -/

/-- C2: `findDue(now, orgScope)` returns exactly the rules with `sent_at`
null, `deleted_at` null, and `scheduled_at ≤ now` in the given tenant,
sorted ascending by `scheduled_at` with ties broken by rule identifier, and
returns the empty list (not an error) when no rule satisfies the predicate.
The scan is a pure function of the store and mutates nothing. -/
theorem findDue_spec (store : Store) (now org : Nat) :
    (∀ r : RuleState, r ∈ findDue store now org ↔ (r ∈ store ∧ isDue now org r = true))
    ∧ List.Sorted ruleLe (findDue store now org)
    ∧ ((∀ r ∈ store, isDue now org r = false) → findDue store now org = []) := by
  refine ⟨?_, ?_, ?_⟩
  · intro r
    unfold findDue
    rw [List.mem_insertionSort, List.mem_filter]
  · exact List.sorted_insertionSort ruleLe _
  · intro h
    unfold findDue
    have hf : List.filter (isDue now org) store = [] := by
      rw [List.filter_eq_nil_iff]
      intro a ha
      simp [h a ha]
    rw [hf]
    rfl

/-- Witness for C2 on a concrete store where nothing is due: the scan
returns the empty list. -/
theorem findDue_spec_witness : findDue [sentR] 100 1 = [] :=
  (findDue_spec [sentR] 100 1).2.2 (by decide)

/-- C6: for a yearly recurrence rule, `nextOccurrence` returns the date
with the anchor's month and day in the smallest year ≥ the reference year
such that the resulting date is ≥ the reference date; in particular anchor
2024-03-15 with reference 2025-01-01 yields 2025-03-15. -/
theorem nextOccurrence_yearly_spec :
    (∀ anchor ref : Date,
      (nextOccurrence anchor (some "FREQ=YEARLY") ref).month = anchor.month
      ∧ (nextOccurrence anchor (some "FREQ=YEARLY") ref).day = anchor.day
      ∧ Date.le ref (nextOccurrence anchor (some "FREQ=YEARLY") ref)
      ∧ ref.year ≤ (nextOccurrence anchor (some "FREQ=YEARLY") ref).year
      ∧ (∀ y : Int, ref.year ≤ y → y < (nextOccurrence anchor (some "FREQ=YEARLY") ref).year →
          ¬ Date.le ref ⟨y, anchor.month, anchor.day⟩))
    ∧ nextOccurrence ⟨2024, 3, 15⟩ (some "FREQ=YEARLY") ⟨2025, 1, 1⟩ = ⟨2025, 3, 15⟩ := by
  constructor
  · intro anchor ref
    have h : nextOccurrence anchor (some "FREQ=YEARLY") ref = yearlyNext anchor ref := by
      simp [nextOccurrence]
    rw [h]
    unfold yearlyNext
    by_cases hc : Date.le ref ⟨ref.year, anchor.month, anchor.day⟩
    · rw [if_pos hc]
      refine ⟨rfl, rfl, hc, le_refl _, ?_⟩
      intro y h1 h2
      have h2' : y < ref.year := h2
      exact absurd h1 (by omega)
    · rw [if_neg hc]
      refine ⟨rfl, rfl, Or.inl (show ref.year < ref.year + 1 by omega),
        show ref.year ≤ ref.year + 1 by omega, ?_⟩
      intro y h1 h2 hle
      have h2' : y < ref.year + 1 := h2
      have hy : y = ref.year := by omega
      subst hy
      exact hc hle
  · rfl

/-- C7: a LEAD_TIME rule with a parent DateItem resolves to the parent's
next occurrence minus `leadTimeDays` calendar days at the configured 09:00
delivery hour; `leadTimeDays=14` on a 2025-03-15 occurrence resolves to
2025-03-01T09:00; a LEAD_TIME rule without a parent fails with
`ConfigurationError`. -/
theorem resolveScheduledAt_leadTime_spec :
    (∀ (rule : TriggerSpec) (p : Date) (n : Nat),
      rule.kind = TriggerKind.leadTime → rule.leadTimeDays = some n →
      resolveScheduledAt rule (some p) = Except.ok ⟨subDays p n, deliveryHour, 0⟩)
    ∧ (∀ rule : TriggerSpec, rule.kind = TriggerKind.leadTime →
      resolveScheduledAt rule none = Except.error ReminderError.configurationError)
    ∧ deliveryHour = 9
    ∧ resolveScheduledAt ⟨TriggerKind.leadTime, some 14, none⟩ (some ⟨2025, 3, 15⟩)
        = Except.ok ⟨⟨2025, 3, 1⟩, 9, 0⟩ := by
  refine ⟨?_, ?_, rfl, rfl⟩
  · intro rule p n hk hl
    unfold resolveScheduledAt
    rw [hk, hl]
  · intro rule hk
    unfold resolveScheduledAt
    rw [hk]

/-- Witness for C7 at `leadTimeDays = 14`, parent occurrence 2025-03-15:
the resolved schedule is 2025-03-01T09:00, and the parentless call fails. -/
theorem resolveScheduledAt_leadTime_spec_witness :
    resolveScheduledAt ⟨TriggerKind.leadTime, some 14, none⟩ (some ⟨2025, 3, 15⟩)
        = Except.ok ⟨subDays ⟨2025, 3, 15⟩ 14, deliveryHour, 0⟩
    ∧ resolveScheduledAt ⟨TriggerKind.leadTime, some 14, none⟩ none
        = Except.error ReminderError.configurationError :=
  ⟨resolveScheduledAt_leadTime_spec.1 ⟨TriggerKind.leadTime, some 14, none⟩ ⟨2025, 3, 15⟩ 14 rfl rfl,
   resolveScheduledAt_leadTime_spec.2.1 ⟨TriggerKind.leadTime, some 14, none⟩ rfl⟩

/-- C8 counter-evidence: on an unsupported recurrence pattern the
calculator silently falls back to the anchor date (it does not fail with
`RecurrenceError(UnsupportedPattern)`): anchor 2024-03-15 with pattern
`FREQ=MONTHLY` and reference 2025-01-01 returns 2024-03-15, the anchor. -/
theorem nextOccurrence_unsupported_fallback :
    nextOccurrence ⟨2024, 3, 15⟩ (some "FREQ=MONTHLY") ⟨2025, 1, 1⟩ = ⟨2024, 3, 15⟩ := by
  decide

/-- C3: a dispatch failure at any of steps 1-3 (context fetch, composition,
send) surfaces as a pipeline error, and a failed dispatch does not set
`sent_at`: the rule stays PENDING with failure metadata (error kind,
message, timestamp, incremented attempt count) recorded, and the single
DeliveryRecord appended for the attempt has `success = false` — none with
`success = true` is created. -/
theorem dispatch_failure_spec :
    (∀ (env : Collaborators) (r : RuleState) (e : DispatchError),
      env.getContext r = .error e → runSteps env r = .error e)
    ∧ (∀ (env : Collaborators) (r : RuleState) (ctx : PersonContext) (e : DispatchError),
      env.getContext r = .ok ctx → env.compose ctx r = .error e → runSteps env r = .error e)
    ∧ (∀ (env : Collaborators) (r : RuleState) (ctx : PersonContext) (text : String)
        (e : DispatchError),
      env.getContext r = .ok ctx → env.compose ctx r = .ok text → env.send text r = .error e →
      runSteps env r = .error e)
    ∧ (∀ (env : Collaborators) (now : Nat) (r : RuleState) (e : DispatchError),
      runSteps env r = .error e → r.sentAt = none →
      (dispatchOne env now r).1.sentAt = none
      ∧ (dispatchOne env now r).1.attemptCount = r.attemptCount + 1
      ∧ (dispatchOne env now r).1.lastError = some e.kind
      ∧ (dispatchOne env now r).1.lastErrorMessage = some e.msg
      ∧ (dispatchOne env now r).1.lastErrorAt = some now
      ∧ (dispatchOne env now r).2.success = false) := by
  refine ⟨?_, ?_, ?_, ?_⟩
  · intro env r e h
    unfold runSteps
    rw [h]
  · intro env r ctx e h1 h2
    simp [runSteps, h1, h2]
  · intro env r ctx text e h1 h2 h3
    simp [runSteps, h1, h2, h3]
  · intro env now r e h hs
    unfold dispatchOne
    rw [h]
    exact ⟨hs, rfl, rfl, rfl, rfl, rfl⟩

/-- Witness for C3: with always-failing context fetch, dispatching a
concrete pending rule leaves it unsent with recorded metadata and a
failure record. -/
theorem dispatch_failure_spec_witness :
    runSteps failEnv pendR1 = .error ⟨.contextUnavailable, "identity deleted"⟩
    ∧ (dispatchOne failEnv 100 pendR1).1.sentAt = none
    ∧ (dispatchOne failEnv 100 pendR1).1.attemptCount = pendR1.attemptCount + 1
    ∧ (dispatchOne failEnv 100 pendR1).2.success = false := by
  have h1 := dispatch_failure_spec.1 failEnv pendR1 ⟨.contextUnavailable, "identity deleted"⟩ rfl
  have h4 := dispatch_failure_spec.2.2.2 failEnv 100 pendR1
    ⟨.contextUnavailable, "identity deleted"⟩ h1 rfl
  exact ⟨h1, h4.1, h4.2.1, h4.2.2.2.2.2⟩

/-- C5: `retry(ruleId)` fails with `NotFound` when no such rule exists,
fails with `InvalidState` on a rule that is still PENDING, and on a
terminally-failed or already-sent rule returns the updated rule with
`sent_at` cleared, terminal-failure flag cleared, attempt count reset to
zero, and `scheduled_at` recomputed to a value ≤ now. -/
theorem retry_spec (store : Store) (id now : Nat) :
    (List.find? (fun r => r.id = id) store = none →
      retry store id now = .error .notFound)
    ∧ (∀ r : RuleState, List.find? (fun r => r.id = id) store = some r →
      r.sentAt = none → r.terminalFailure = false →
      retry store id now = .error .invalidState)
    ∧ (∀ r : RuleState, List.find? (fun r => r.id = id) store = some r →
      (r.sentAt ≠ none ∨ r.terminalFailure = true) →
      retry store id now = .ok (retryFields now r, updateRule store id (retryFields now))
      ∧ (retryFields now r).sentAt = none
      ∧ (retryFields now r).terminalFailure = false
      ∧ (retryFields now r).attemptCount = 0
      ∧ (retryFields now r).scheduledAt ≤ now) := by
  refine ⟨?_, ?_, ?_⟩
  · intro h
    unfold retry
    rw [h]
  · intro r hf hs ht
    unfold retry
    rw [hf]
    simp [hs, ht]
  · intro r hf hcase
    have hcond : ¬ (r.sentAt = none ∧ r.terminalFailure = false) := by
      rcases hcase with h | h
      · tauto
      · simp [h]
    simp only [retry, hf]
    rw [if_neg hcond]
    exact ⟨rfl, rfl, rfl, rfl, le_refl now⟩

/-- Witness for C5: retrying a concrete sent rule succeeds and resets its
fields; retrying a missing rule fails with NotFound; retrying a concrete
pending rule fails with InvalidState. -/
theorem retry_spec_witness :
    retry [sentR] 5 100 = .ok (retryFields 100 sentR, updateRule [sentR] 5 (retryFields 100))
    ∧ (retryFields 100 sentR).sentAt = none
    ∧ (retryFields 100 sentR).attemptCount = 0
    ∧ retry [sentR] 99 100 = .error .notFound
    ∧ retry [pendR1] 1 100 = .error .invalidState := by
  have h3 := (retry_spec [sentR] 5 100).2.2 sentR (by decide) (by decide)
  exact ⟨h3.1, h3.2.1, h3.2.2.2.1,
    (retry_spec [sentR] 99 100).1 (by decide),
    (retry_spec [pendR1] 1 100).2.1 pendR1 (by decide) rfl rfl⟩

/-- C9: `sent_at` is monotonic — once non-null, no operation other than
retry changes it (ordinary updates are rejected once the rule has been
sent), and the retry reset that clears it also clears the prior failure
metadata in the same step. -/
theorem sentAt_monotonic_spec :
    (∀ (op : RuleOp) (r : RuleState) (t : Nat), r.sentAt = some t →
      (∀ now, op ≠ RuleOp.retryOp now) → (applyRuleOp op r).sentAt = some t)
    ∧ (∀ (r : RuleState) (now : Nat),
      (applyRuleOp (RuleOp.retryOp now) r).sentAt = none
      ∧ (applyRuleOp (RuleOp.retryOp now) r).lastError = none
      ∧ (applyRuleOp (RuleOp.retryOp now) r).lastErrorMessage = none
      ∧ (applyRuleOp (RuleOp.retryOp now) r).lastErrorAt = none
      ∧ (applyRuleOp (RuleOp.retryOp now) r).terminalFailure = false)
    ∧ (∀ (store : Store) (id : Nat) (p : UpdatePatch) (r : RuleState),
      List.find? (fun x => x.id = id) store = some r → r.sentAt ≠ none →
      apiUpdate store id p = .error .invalidState) := by
  refine ⟨?_, ?_, ?_⟩
  · intro op r t ht hop
    cases op with
    | update p => simp [applyRuleOp, ht]
    | dispatch env now => simp [applyRuleOp, ht]
    | softDelete now => simpa [applyRuleOp] using ht
    | retryOp now => exact absurd rfl (hop now)
  · intro r now
    exact ⟨rfl, rfl, rfl, rfl, rfl⟩
  · intro store id p r hf hs
    simp only [apiUpdate, hf]
    rw [if_neg hs]

/-- Witness for C9: on a concrete sent rule, an ordinary update and a
guarded dispatch leave `sent_at` untouched and the update endpoint rejects;
a retry clears both `sent_at` and the failure metadata. -/
theorem sentAt_monotonic_spec_witness :
    (applyRuleOp (RuleOp.update ⟨some 7⟩) sentR).sentAt = some 40
    ∧ (applyRuleOp (RuleOp.dispatch failEnv 50) sentR).sentAt = some 40
    ∧ (applyRuleOp (RuleOp.softDelete 60) sentR).sentAt = some 40
    ∧ (applyRuleOp (RuleOp.retryOp 70) termR).sentAt = none
    ∧ (applyRuleOp (RuleOp.retryOp 70) termR).lastError = none
    ∧ apiUpdate [sentR] 5 ⟨some 7⟩ = .error .invalidState := by
  have hmono := sentAt_monotonic_spec.1
  have hretry := sentAt_monotonic_spec.2.1 termR 70
  exact ⟨hmono (RuleOp.update ⟨some 7⟩) sentR 40 rfl (fun now h => by cases h),
    hmono (RuleOp.dispatch failEnv 50) sentR 40 rfl (fun now h => by cases h),
    hmono (RuleOp.softDelete 60) sentR 40 rfl (fun now h => by cases h),
    hretry.1, hretry.2.1,
    sentAt_monotonic_spec.2.2 [sentR] 5 ⟨some 7⟩ sentR (by decide) (by decide)⟩

/-- C10: the listing interface derives exactly two lifecycle states from
`sent_at` (pending iff null, sent iff non-null), its status filter accepts
only the three values all/pending/sent, the derived status depends on
nothing but `sent_at`, and membership of an unsent rule in the pending
listing is independent of its terminal-failure flag — a terminally-failed
rule is indistinguishable from an ordinary pending one. -/
theorem listing_status_spec :
    (∀ f : StatusFilter, f = .all ∨ f = .pending ∨ f = .sent)
    ∧ (∀ r : RuleState, (statusOf r = .pending ↔ r.sentAt = none)
      ∧ (statusOf r = .sent ↔ r.sentAt ≠ none))
    ∧ (∀ r r' : RuleState, r.sentAt = r'.sentAt → statusOf r = statusOf r')
    ∧ (∀ (store : Store) (org : Nat) (r : RuleState), r ∈ store →
      (r ∈ listReminders store org .pending
        ↔ (r.orgId = org ∧ r.deletedAt = none ∧ r.sentAt = none))) := by
  refine ⟨?_, ?_, ?_, ?_⟩
  · intro f
    cases f
    · exact Or.inl rfl
    · exact Or.inr (Or.inl rfl)
    · exact Or.inr (Or.inr rfl)
  · intro r
    unfold statusOf
    by_cases h : r.sentAt = none
    · simp [h]
    · simp [h]
  · intro r r' h
    unfold statusOf
    rw [h]
  · intro store org r hr
    unfold listReminders
    rw [List.mem_filter]
    unfold matchesFilter statusOf
    by_cases h : r.sentAt = none
    · simp [h, hr]
    · simp [h, hr]

/-- Witness for C10: a concrete terminally-failed rule and a concrete
ordinary pending rule get the same derived status, and the
terminally-failed rule appears in the pending listing. -/
theorem listing_status_spec_witness :
    statusOf termR = statusOf pendR1
    ∧ (termR ∈ listReminders [termR] 1 .pending
      ↔ (termR.orgId = 1 ∧ termR.deletedAt = none ∧ termR.sentAt = none)) :=
  ⟨(listing_status_spec.2.2.1 termR pendR1 rfl),
   listing_status_spec.2.2.2 [termR] 1 termR (List.mem_singleton.mpr rfl)⟩

/-! ### Store-lookup helper lemmas -/

/-- Dispatch preserves the rule identifier. -/
theorem dispatchOne_fst_id (env : Collaborators) (now : Nat) (r : RuleState) :
    (dispatchOne env now r).1.id = r.id := by
  unfold dispatchOne
  cases h : runSteps env r <;> rfl

/-- Updating one rule leaves lookups of other identifiers unchanged. -/
theorem updateRule_find?_ne {st : Store} {id j : Nat} {f : RuleState → RuleState}
    (hf : ∀ r : RuleState, r.id = id → (f r).id = id) (hne : j ≠ id) :
    List.find? (fun r => r.id = j) (updateRule st id f)
      = List.find? (fun r => r.id = j) st := by
  induction st with
  | nil => rfl
  | cons a l ih =>
    show List.find? _ (List.map _ (a :: l)) = _
    rw [List.map_cons]
    by_cases ha : a.id = id
    · have hfa : (f a).id = id := hf a ha
      rw [if_pos ha]
      rw [List.find?_cons_of_neg _ (by simp only [decide_eq_true_eq, hfa]; exact Ne.symm hne),
        List.find?_cons_of_neg _ (by simp only [decide_eq_true_eq, ha]; exact Ne.symm hne)]
      exact ih
    · rw [if_neg ha]
      by_cases haj : a.id = j
      · rw [List.find?_cons_of_pos _ (by simp [haj]), List.find?_cons_of_pos _ (by simp [haj])]
      · rw [List.find?_cons_of_neg _ (by simp [haj]), List.find?_cons_of_neg _ (by simp [haj])]
        exact ih

/-- Lookup of the updated identifier maps the update over the lookup. -/
theorem updateRule_find?_eq {st : Store} {id : Nat} {f : RuleState → RuleState}
    (hf : ∀ r : RuleState, r.id = id → (f r).id = id) :
    List.find? (fun r => r.id = id) (updateRule st id f)
      = Option.map f (List.find? (fun r => r.id = id) st) := by
  induction st with
  | nil => rfl
  | cons a l ih =>
    show List.find? _ (List.map _ (a :: l)) = _
    rw [List.map_cons]
    by_cases ha : a.id = id
    · rw [if_pos ha]
      rw [List.find?_cons_of_pos _ (by simp [hf a ha]), List.find?_cons_of_pos _ (by simp [ha])]
      rfl
    · rw [if_neg ha]
      rw [List.find?_cons_of_neg _ (by simp [ha]), List.find?_cons_of_neg _ (by simp [ha])]
      exact ih

/-- In a store with pairwise-distinct identifiers, looking up a member's
identifier finds exactly that member. -/
theorem find?_id_eq_of_mem {st : Store} {r : RuleState}
    (hp : List.Pairwise (fun a b : RuleState => a.id ≠ b.id) st) (hr : r ∈ st) :
    List.find? (fun x => x.id = r.id) st = some r := by
  induction st with
  | nil => cases hr
  | cons a l ih =>
    rcases List.mem_cons.mp hr with h | h
    · subst h
      rw [List.find?_cons_of_pos _ (by simp)]
    · have hne : a.id ≠ r.id := (List.pairwise_cons.mp hp).1 r h
      rw [List.find?_cons_of_neg _ (by simp [hne])]
      exact ih (List.pairwise_cons.mp hp).2 h

/-- A dispatch step on identifier `id` leaves lookups of other identifiers
unchanged. -/
theorem dispatchStep_find?_ne (env : Collaborators) (now : Nat) {st : Store} {id j : Nat}
    (hne : j ≠ id) :
    List.find? (fun r => r.id = j) (dispatchStep env now st id)
      = List.find? (fun r => r.id = j) st := by
  cases hfind : List.find? (fun r => r.id = id) st with
  | none => simp only [dispatchStep, hfind]
  | some r =>
    have hrid : r.id = id := by simpa using List.find?_some hfind
    by_cases hs : r.sentAt = none
    · simp only [dispatchStep, hfind, if_pos hs]
      exact updateRule_find?_ne
        (fun r' _ => by rw [dispatchOne_fst_id]; exact hrid) hne
    · simp only [dispatchStep, hfind, if_neg hs]

/-- A dispatch step on identifier `id` transforms that row's lookup by the
unsent-guarded dispatch. -/
theorem dispatchStep_find?_eq (env : Collaborators) (now : Nat) {st : Store} {id : Nat} :
    List.find? (fun r => r.id = id) (dispatchStep env now st id)
      = Option.map (fun r => if r.sentAt = none then (dispatchOne env now r).1 else r)
          (List.find? (fun r => r.id = id) st) := by
  cases hfind : List.find? (fun r => r.id = id) st with
  | none => simp [dispatchStep, hfind]
  | some r =>
    have hrid : r.id = id := by simpa using List.find?_some hfind
    by_cases hs : r.sentAt = none
    · simp only [dispatchStep, hfind, if_pos hs]
      rw [updateRule_find?_eq (fun r' _ => by rw [dispatchOne_fst_id]; exact hrid), hfind]
      simp [hs]
    · simp only [dispatchStep, hfind, if_neg hs]
      simp [hs, hfind]

/-- Processing a due-list not containing `j` leaves `j`'s row unchanged. -/
theorem processDue_find?_not_mem (env : Collaborators) (now : Nat) {j : Nat}
    {ds : List Nat} (h : j ∉ ds) : ∀ st : Store,
    List.find? (fun r => r.id = j) (processDue env now st ds)
      = List.find? (fun r => r.id = j) st := by
  induction ds with
  | nil => intro st; rfl
  | cons i l ih =>
    intro st
    have hji : j ≠ i := fun he => h (he ▸ List.mem_cons_self i l)
    have hjl : j ∉ l := fun hm => h (List.mem_cons_of_mem i hm)
    show List.find? _ (processDue env now (dispatchStep env now st i) l) = _
    rw [ih hjl, dispatchStep_find?_ne env now hji]

/-- Processing a due-list containing `j` exactly once applies the
unsent-guarded dispatch to `j`'s row. -/
theorem processDue_find?_split (env : Collaborators) (now : Nat) {st : Store} {j : Nat}
    {ds₁ ds₂ : List Nat} (h1 : j ∉ ds₁) (h2 : j ∉ ds₂) :
    List.find? (fun r => r.id = j) (processDue env now st (ds₁ ++ j :: ds₂))
      = Option.map (fun r => if r.sentAt = none then (dispatchOne env now r).1 else r)
          (List.find? (fun r => r.id = j) st) := by
  unfold processDue
  rw [List.foldl_append]
  show List.find? _
      (processDue env now (dispatchStep env now (processDue env now st ds₁) j) ds₂) = _
  rw [processDue_find?_not_mem env now h2, dispatchStep_find?_eq env now,
    processDue_find?_not_mem env now h1]

/-- Due rules are members of the scan result. -/
theorem findDue_mem {store : Store} {now org : Nat} {r : RuleState}
    (hr : r ∈ store) (hd : isDue now org r = true) :
    r ∈ findDue store now org := by
  unfold findDue
  rw [List.mem_insertionSort, List.mem_filter]
  exact ⟨hr, hd⟩

/-- With pairwise-distinct store identifiers, the scan result's identifier
list has no duplicates. -/
theorem findDue_ids_nodup {store : Store} (now org : Nat)
    (hp : List.Pairwise (fun a b : RuleState => a.id ≠ b.id) store) :
    (List.map (fun r => r.id) (findDue store now org)).Nodup := by
  have h1 : List.Pairwise (fun a b : RuleState => a.id ≠ b.id)
      (List.filter (isDue now org) store) :=
    List.Pairwise.sublist (List.filter_sublist store) hp
  have h2 : List.Pairwise (fun a b : RuleState => a.id ≠ b.id) (findDue store now org) :=
    ((List.perm_insertionSort ruleLe _).pairwise_iff
      (fun h => Ne.symm h)).mpr h1
  exact List.Pairwise.map _ (fun _ _ h => h) h2

/-- C1: failure isolation across a batch.  In one dispatch cycle over a
store with distinct rule identifiers, if the collaborator pipeline always
fails its context fetch on rule `k` and succeeds on every other rule, then
every other due rule is still dispatched and reaches SENT
(`sent_at = now`) within the same cycle, while rule `k`'s error is caught
and recorded on the rule (it stays unsent with its failure metadata set);
nothing propagates to abort the cycle. -/
theorem failure_isolation_spec
    (store : Store) (env : Collaborators) (now org k : Nat)
    (hids : List.Pairwise (fun a b : RuleState => a.id ≠ b.id) store)
    (hok : ∀ r : RuleState, r.id ≠ k → ∃ text, runSteps env r = .ok text)
    (hfail : ∀ r : RuleState, r.id = k →
      ∃ msg, env.getContext r = .error ⟨.contextUnavailable, msg⟩) :
    ∀ r ∈ store, isDue now org r = true →
      (r.id ≠ k →
        List.find? (fun x => x.id = r.id) (runCycle env now org store)
          = some (markSentFields now r)
        ∧ (markSentFields now r).sentAt = some now)
      ∧ (r.id = k →
        ∃ e : DispatchError, e.kind = .contextUnavailable
          ∧ List.find? (fun x => x.id = r.id) (runCycle env now org store)
            = some (recordFailure now e r)
          ∧ (recordFailure now e r).sentAt = none
          ∧ (recordFailure now e r).lastError = some ErrorKind.contextUnavailable
          ∧ (recordFailure now e r).attemptCount = r.attemptCount + 1) := by
  intro r hr hdue
  have hsent : r.sentAt = none := by
    have h := hdue
    simp [isDue] at h
    tauto
  have hmem : r ∈ findDue store now org := findDue_mem hr hdue
  have hidmem : r.id ∈ List.map (fun x => x.id) (findDue store now org) :=
    List.mem_map_of_mem _ hmem
  have hnodup := findDue_ids_nodup now org hids
  obtain ⟨ds₁, ds₂, hds⟩ := List.append_of_mem hidmem
  have hnd : (ds₁ ++ r.id :: ds₂).Nodup := hds ▸ hnodup
  have h1 : r.id ∉ ds₁ := fun hm =>
    (List.nodup_append.mp hnd).2.2 hm (List.mem_cons_self _ _)
  have h2 : r.id ∉ ds₂ := (List.nodup_cons.mp (List.nodup_append.mp hnd).2.1).1
  have hfind : List.find? (fun x => x.id = r.id) store = some r := find?_id_eq_of_mem hids hr
  have hcore : List.find? (fun x => x.id = r.id) (runCycle env now org store)
      = some ((dispatchOne env now r).1) := by
    unfold runCycle
    rw [hds, processDue_find?_split env now h1 h2, hfind]
    simp [hsent]
  constructor
  · intro hnk
    obtain ⟨text, htext⟩ := hok r hnk
    have hd1 : (dispatchOne env now r).1 = markSentFields now r := by
      unfold dispatchOne
      rw [htext]
    rw [hd1] at hcore
    exact ⟨hcore, rfl⟩
  · intro hk
    obtain ⟨msg, hmsg⟩ := hfail r hk
    have hsteps : runSteps env r = .error ⟨.contextUnavailable, msg⟩ := by
      unfold runSteps
      rw [hmsg]
    have hd1 : (dispatchOne env now r).1
        = recordFailure now ⟨.contextUnavailable, msg⟩ r := by
      unfold dispatchOne
      rw [hsteps]
    rw [hd1] at hcore
    exact ⟨⟨.contextUnavailable, msg⟩, rfl, hcore, hsent, rfl, rfl⟩

/-- Witness for C1 on a concrete three-rule batch where rule 2's context
fetch always fails: rules 1 and 3 reach SENT in the cycle, rule 2 stays
unsent with its failure recorded. -/
theorem failure_isolation_spec_witness :
    List.find? (fun x => x.id = 1) (runCycle isoEnv 100 1 isoStore)
      = some (markSentFields 100 pendR1)
    ∧ List.find? (fun x => x.id = 3) (runCycle isoEnv 100 1 isoStore)
      = some (markSentFields 100 pendR3)
    ∧ (markSentFields 100 pendR1).sentAt = some 100
    ∧ (∃ e : DispatchError, e.kind = .contextUnavailable
        ∧ List.find? (fun x => x.id = 2) (runCycle isoEnv 100 1 isoStore)
          = some (recordFailure 100 e pendR2)
        ∧ (recordFailure 100 e pendR2).sentAt = none) := by
  have h := failure_isolation_spec isoStore isoEnv 100 1 2 (by decide)
    (by
      intro r hr
      refine ⟨"hello", ?_⟩
      simp [runSteps, isoEnv, hr])
    (by
      intro r hr
      exact ⟨"identity deleted", by simp [isoEnv, hr]⟩)
  have ha := (h pendR1 (by decide) (by decide)).1 (by decide)
  have hb := (h pendR3 (by decide) (by decide)).1 (by decide)
  have hc := (h pendR2 (by decide) (by decide)).2 rfl
  obtain ⟨e, he1, he2, he3, _⟩ := hc
  exact ⟨ha.1, hb.1, ha.2, e, he1, he2, he3⟩

/-- A conditional mark-sent attempt on a rule that is missing or already
sent changes nothing and reports failure. -/
theorem markSentCAS_noop {store : Store} {id t : Nat}
    (h : ∀ r : RuleState, List.find? (fun r => r.id = id) store = some r → r.sentAt ≠ none) :
    markSentCAS store id t = (store, false) := by
  cases hf : List.find? (fun r => r.id = id) store with
  | none => simp only [markSentCAS, hf]
  | some r => simp only [markSentCAS, hf, if_neg (h r hf)]

/-- Any number of conditional mark-sent attempts on a rule that is missing
or already sent all fail and change nothing. -/
theorem runCASAttempts_noop (store : Store) (id : Nat)
    (h : ∀ r : RuleState, List.find? (fun r => r.id = id) store = some r → r.sentAt ≠ none) :
    ∀ ts : List Nat, runCASAttempts store id ts = (store, 0) := by
  intro ts
  induction ts with
  | nil => rfl
  | cons t l ih =>
    simp [runCASAttempts, markSentCAS_noop h, ih]

/-- C4: under concurrent dispatch attempts on the same rule — modelled as
any nonempty sequence of interleaved atomic conditional updates
("set sent_at where id=X and sent_at IS NULL") — exactly one attempt wins
and transitions `sent_at` from null to non-null; every other attempt
observes the conditional update fail, and the stored row afterwards is the
single authoritative mark-sent result of the winning attempt. -/
theorem atMostOne_sent_spec (store : Store) (id : Nat) (r : RuleState) (t : Nat)
    (rest : List Nat)
    (hfind : List.find? (fun x => x.id = id) store = some r)
    (hunsent : r.sentAt = none) :
    (runCASAttempts store id (t :: rest)).2 = 1
    ∧ List.find? (fun x => x.id = id) (runCASAttempts store id (t :: rest)).1
        = some (markSentFields t r)
    ∧ (markSentFields t r).sentAt = some t := by
  have hrid : r.id = id := by simpa using List.find?_some hfind
  have hcas : markSentCAS store id t = (updateRule store id (markSentFields t), true) := by
    simp only [markSentCAS, hfind, if_pos hunsent]
  have hfind' : List.find? (fun x => x.id = id) (updateRule store id (markSentFields t))
      = some (markSentFields t r) := by
    rw [updateRule_find?_eq (f := markSentFields t) (fun r' h' => h'), hfind]
    rfl
  have hnoop := runCASAttempts_noop (updateRule store id (markSentFields t)) id
    (fun r' hf' => by
      rw [hfind'] at hf'
      cases hf'
      simp [markSentFields]) rest
  have hrun : runCASAttempts store id (t :: rest)
      = (updateRule store id (markSentFields t), 1) := by
    simp [runCASAttempts, hcas, hnoop]
  rw [hrun]
  exact ⟨rfl, hfind', rfl⟩

/-- Witness for C4: two racing attempts (at instants 100 and 200) on a
concrete pending rule — exactly one wins and the row records the winner's
timestamp. -/
theorem atMostOne_sent_spec_witness :
    (runCASAttempts [pendR1] 1 [100, 200]).2 = 1
    ∧ List.find? (fun x => x.id = 1) (runCASAttempts [pendR1] 1 [100, 200]).1
        = some (markSentFields 100 pendR1)
    ∧ (markSentFields 100 pendR1).sentAt = some 100 :=
  atMostOne_sent_spec [pendR1] 1 pendR1 100 [200] (by decide) rfl

/-- Witness for C6 on a concrete passed occurrence: anchor 2024-03-15 with
reference 2025-06-01 keeps the anchor's month, lands on or after the
reference, and the skipped year 2025 indeed fails the bound. -/
theorem nextOccurrence_yearly_spec_witness :
    (nextOccurrence ⟨2024, 3, 15⟩ (some "FREQ=YEARLY") ⟨2025, 6, 1⟩).month = 3
    ∧ Date.le ⟨2025, 6, 1⟩ (nextOccurrence ⟨2024, 3, 15⟩ (some "FREQ=YEARLY") ⟨2025, 6, 1⟩)
    ∧ ¬ Date.le ⟨2025, 6, 1⟩ ⟨(2025 : Int), 3, 15⟩ := by
  have h := nextOccurrence_yearly_spec.1 ⟨2024, 3, 15⟩ ⟨2025, 6, 1⟩
  exact ⟨h.1, h.2.2.1, h.2.2.2.2 2025 (by decide) (by decide)⟩

end AthenaConcierge
